import Mathlib

/-
Verification development for the LavaMathTutor voice tutoring client.
The definitions below are a shallow embedding of the core logic of the
App component (turn reconciliation, playback scheduling, session
lifecycle).  Audio-clock times and buffer durations are modelled as
rationals; machine floats on the values the program uses (sums and max
of small durations) behave exactly like the rational operations.
JS truthiness of optional string fields (the image data URL, the
accumulated text) is modelled by "present and non-empty".
-/

namespace LavaTutor

/-- Speaker enum from types.ts. -/
inductive Speaker
  | USER
  | TUTOR
  deriving DecidableEq, Repr

/-- TranscriptEntry from types.ts: speaker, text, optional image data URL. -/
structure TranscriptEntry where
  speaker : Speaker
  text : String
  image : Option String := none
  deriving DecidableEq, Repr

/-- Session status values of the App component. -/
inductive Status
  | IDLE
  | CONNECTING
  | LISTENING
  | THINKING
  | SPEAKING
  deriving DecidableEq, Repr

/-- JS truthiness of the optional image field: present and non-empty.
An absent field and the empty string are both falsy in JS. -/
def imageTruthy : Option String → Bool
  | none => false
  | some s => s ≠ ""

/-- The JS String.prototype.trim builtin used by the source: strips
whitespace from both ends.  Written over the character list so the
kernel can evaluate it on concrete strings. -/
def jsTrim (s : String) : String :=
  String.mk (((s.data.dropWhile Char.isWhitespace).reverse.dropWhile
    Char.isWhitespace).reverse)

/-- The list of new USER entries pushed by the turnComplete branch:
one entry when the trimmed user input is truthy (non-empty), else none.
The argument is already trimmed. -/
def userEntriesOf (fullUserInput : String) : List TranscriptEntry :=
  if fullUserInput ≠ "" then [{ speaker := Speaker.USER, text := fullUserInput }] else []

/-- The list of new TUTOR entries pushed by the turnComplete branch:
one entry when the trimmed model output is truthy (non-empty), else none.
The argument is already trimmed. -/
def tutorEntriesOf (fullModelOutput : String) : List TranscriptEntry :=
  if fullModelOutput ≠ "" then [{ speaker := Speaker.TUTOR, text := fullModelOutput }] else []

/-- The turnComplete branch of onmessage: trim both accumulators; if the
last transcript entry is a USER entry with a truthy image and empty text
and the trimmed user input is non-empty, write the user text into that
last entry in place (the source mutates transcript[length - 1].text);
otherwise append a USER entry for a non-empty user accumulator.  A
non-empty tutor accumulator appends a TUTOR entry in both branches. -/
def commitTurn (t : List TranscriptEntry) (userAcc modelAcc : String) :
    List TranscriptEntry :=
  match t.getLast? with
  | some lastEntry =>
      if lastEntry.speaker = Speaker.USER ∧ imageTruthy lastEntry.image = true ∧
          lastEntry.text = "" ∧ jsTrim userAcc ≠ "" then
        (t.dropLast ++ [{ lastEntry with text := jsTrim userAcc }]) ++
          tutorEntriesOf (jsTrim modelAcc)
      else
        t ++ (userEntriesOf (jsTrim userAcc) ++ tutorEntriesOf (jsTrim modelAcc))
  | none =>
      t ++ (userEntriesOf (jsTrim userAcc) ++ tutorEntriesOf (jsTrim modelAcc))

example :
    commitTurn [{ speaker := Speaker.USER, text := "", image := some "data:img" }]
      " hi " "ok" =
      [{ speaker := Speaker.USER, text := "hi", image := some "data:img" },
       { speaker := Speaker.TUTOR, text := "ok" }] := by
  decide

example : commitTurn [] "  " " " = [] := by decide

/-- ScheduledPlayback: a decoded output buffer (kept as its duration in
seconds) paired with the absolute output-clock time at which it starts. -/
structure ScheduledPlayback where
  duration : ℚ
  startTime : ℚ
  deriving DecidableEq, Repr

/-- Playback Scheduler state: the pending queue (audioPlaybackQueueRef),
the timeline cursor (nextStartTimeRef), the set of in-flight started
sources (audioSourcesRef, kept in start order), and the history of
sources on which stop was issued (records the stop side effect). -/
structure PlaybackState where
  queue : List ScheduledPlayback
  nextStartTime : ℚ
  sources : List ScheduledPlayback
  stopped : List ScheduledPlayback
  deriving DecidableEq, Repr

/-- The audio branch of onmessage, lines that push onto the playback
queue: the cursor is raised to max(cursor, currentTime), the buffer is
queued at that start time, and the cursor advances by the duration. -/
def enqueue (p : PlaybackState) (currentTime duration : ℚ) : PlaybackState :=
  let start := max p.nextStartTime currentTime
  { p with queue := p.queue ++ [{ duration := duration, startTime := start }],
           nextStartTime := start + duration }

/-- processAudioPlayback: shift every queued entry, start a source for it
at its startTime, and add the source to the in-flight set.  The guard on
a missing output context is dropped: the context exists whenever audio
arrives on an open session. -/
def processAudioPlayback (p : PlaybackState) : PlaybackState :=
  { p with queue := [], sources := p.sources ++ p.queue }

/-- stopAllPlayback: issue stop on every in-flight source, clear the
source set, empty the queue, and reset the cursor to zero. -/
def stopAllPlayback (p : PlaybackState) : PlaybackState :=
  { queue := [], nextStartTime := 0, sources := [],
    stopped := p.stopped ++ p.sources }

/-- Run a sequence of enqueue calls; each event is the pair of the output
clock reading at the call and the duration of the decoded buffer. -/
def runEnqueues (p : PlaybackState) : List (ℚ × ℚ) → PlaybackState
  | [] => p
  | ev :: rest => runEnqueues (enqueue p ev.1 ev.2) rest

/-- The start times a sequence of enqueue calls assigns, in arrival
order: each is max of the cursor at that moment and the clock reading. -/
def assignedStarts (p : PlaybackState) : List (ℚ × ℚ) → List ℚ
  | [] => []
  | ev :: rest => max p.nextStartTime ev.1 :: assignedStarts (enqueue p ev.1 ev.2) rest

/-- Full state of the App component that the core logic touches. -/
structure AppState where
  isSessionActive : Bool
  status : Status
  transcript : List TranscriptEntry
  userTranscription : String
  modelTranscription : String
  playback : PlaybackState
  sessionOpen : Bool
  notices : List String
  deriving DecidableEq, Repr

/-- serverContent of an inbound live message: optional transcription
fragments for each speaker, the model turn (absent, or present with or
without truthy inline audio data, the latter carried as the duration of
the decoded buffer), and the turnComplete and interrupted flags. -/
structure ServerContent where
  inputTranscription : Option String
  outputTranscription : Option String
  modelTurn : Option (Option ℚ)
  turnComplete : Bool
  interrupted : Bool
  deriving DecidableEq, Repr

/-- First section of onmessage: append each present transcription
fragment to the accumulator of its speaker. -/
def applyFrags (s : AppState) (c : ServerContent) : AppState :=
  { s with userTranscription := s.userTranscription ++ c.inputTranscription.getD "",
           modelTranscription := s.modelTranscription ++ c.outputTranscription.getD "" }

/-- Second section of onmessage: an interrupted flag runs stopAllPlayback. -/
def applyInterrupted (s : AppState) (c : ServerContent) : AppState :=
  if c.interrupted then { s with playback := stopAllPlayback s.playback } else s

/-- Third section of onmessage: a model turn with truthy inline audio
sets SPEAKING, enqueues the decoded buffer at the current output clock
and drains the queue; no model turn sets THINKING; a model turn without
audio sets LISTENING. -/
def applyModelTurn (s : AppState) (c : ServerContent) (currentTime : ℚ) : AppState :=
  match c.modelTurn with
  | some (some duration) =>
      { s with status := Status.SPEAKING,
               playback := processAudioPlayback (enqueue s.playback currentTime duration) }
  | none => { s with status := Status.THINKING }
  | some none => { s with status := Status.LISTENING }

/-- Fourth section of onmessage: on turnComplete, commit the accumulated
turn into the transcript, reset both accumulators and set LISTENING. -/
def applyTurnComplete (s : AppState) (c : ServerContent) : AppState :=
  if c.turnComplete then
    { s with transcript := commitTurn s.transcript s.userTranscription s.modelTranscription,
             userTranscription := "", modelTranscription := "",
             status := Status.LISTENING }
  else s

/-- onmessage: a message without serverContent does nothing; otherwise
the four sections run in source order. -/
def onmessage (s : AppState) (m : Option ServerContent) (currentTime : ℚ) : AppState :=
  match m with
  | none => s
  | some c => applyTurnComplete (applyModelTurn (applyInterrupted (applyFrags s c) c) c currentTime) c

/-- onclose: deactivate the session, set IDLE, release the microphone
and audio contexts, null the session promise, stop all playback.  The
transcript and the transcription accumulators are not touched. -/
def onclose (s : AppState) : AppState :=
  { s with isSessionActive := false, status := Status.IDLE,
           sessionOpen := false, playback := stopAllPlayback s.playback }

/-- onerror: surface the network notice, deactivate, set IDLE and stop
playback.  Unlike onclose it does not null the session promise. -/
def onerror (s : AppState) : AppState :=
  { s with isSessionActive := false, status := Status.IDLE,
           playback := stopAllPlayback s.playback,
           notices := s.notices ++ ["A network error occurred. This could be due to a missing or invalid API key, or a problem with your internet connection. Please check your setup and try again."] }

/-- Start branch of handleToggleSession up to the connect call: set
CONNECTING, clear the transcript, record the pending session promise. -/
def startRequest (s : AppState) : AppState :=
  { s with status := Status.CONNECTING, transcript := [], sessionOpen := true }

/-- onopen: mark the session active and set LISTENING. -/
def onopen (s : AppState) : AppState :=
  { s with isSessionActive := true, status := Status.LISTENING }

/-- Failure path of the start branch (permission denied or connect
failure): surface the notice and set IDLE. -/
def startFailed (s : AppState) : AppState :=
  { s with status := Status.IDLE,
           notices := s.notices ++ ["Could not start session. Please ensure you have given microphone permissions."] }

/-- Stop branch of handleToggleSession together with the onclose callback
its session.close() call triggers; on an inactive session the stop
branch does not run. -/
def stopSession (s : AppState) : AppState :=
  if s.isSessionActive then onclose s else s

/-- handleSendDrawing / handleCropComplete: with no session promise only
a notice is surfaced; otherwise an image-only USER entry is appended to
the transcript and the image is transmitted, a transmission failure
(ok = false) surfacing a notice while changing nothing else. -/
def handleSendDrawing (s : AppState) (imageDataUrl : String) (ok : Bool) : AppState :=
  if s.sessionOpen then
    let s1 := { s with transcript := s.transcript ++
      [{ speaker := Speaker.USER, text := "", image := some imageDataUrl }] }
    if ok then s1
    else { s1 with notices := s1.notices ++ ["There was an error sending the drawing."] }
  else
    { s with notices := s.notices ++ ["Please start the session before sending a drawing."] }

/-- The externally visible events the claims range over. -/
inductive AppEvent
  | msg (m : Option ServerContent) (currentTime : ℚ)
  | close
  | error
  | startReq
  | opened
  | startFail
  | sendImg (imageDataUrl : String) (ok : Bool)
  deriving DecidableEq, Repr

/-- One step of the event-driven state machine. -/
def step (s : AppState) : AppEvent → AppState
  | AppEvent.msg m k => onmessage s m k
  | AppEvent.close => onclose s
  | AppEvent.error => onerror s
  | AppEvent.startReq => startRequest s
  | AppEvent.opened => onopen s
  | AppEvent.startFail => startFailed s
  | AppEvent.sendImg img ok => handleSendDrawing s img ok

/-- Run a trace of events from a state. -/
def runEvents (s : AppState) : List AppEvent → AppState
  | [] => s
  | ev :: rest => runEvents (step s ev) rest

/-- The initial Playback Scheduler state: empty queue, cursor zero. -/
def initPlayback : PlaybackState :=
  { queue := [], nextStartTime := 0, sources := [], stopped := [] }

/-- The initial state of the component: idle, everything empty. -/
def initState : AppState :=
  { isSessionActive := false, status := Status.IDLE, transcript := [],
    userTranscription := "", modelTranscription := "",
    playback := initPlayback, sessionOpen := false, notices := [] }

/-- A convenient open, listening session state for witnesses. -/
def activeState : AppState :=
  { initState with isSessionActive := true, sessionOpen := true,
                   status := Status.LISTENING }

lemma assignedStarts_clock_le (evs : List (ℚ × ℚ)) (p : PlaybackState) :
    List.Forall₂ (fun ev st => ev.1 ≤ st) evs (assignedStarts p evs) := by
  induction evs generalizing p with
  | nil => exact List.Forall₂.nil
  | cons ev rest ih =>
      exact List.Forall₂.cons (le_max_right _ _) (ih _)

lemma runEnqueues_queue_map (evs : List (ℚ × ℚ)) (p : PlaybackState) :
    (runEnqueues p evs).queue.map ScheduledPlayback.startTime =
      p.queue.map ScheduledPlayback.startTime ++ assignedStarts p evs := by
  induction evs generalizing p with
  | nil => simp [runEnqueues, assignedStarts]
  | cons ev rest ih =>
      simp only [runEnqueues, assignedStarts, ih (enqueue p ev.1 ev.2)]
      simp [enqueue]

lemma assignedStarts_chain (evs : List (ℚ × ℚ)) (p : PlaybackState)
    (h : ∀ ev ∈ evs, 0 ≤ ev.2) :
    List.Chain' (· ≤ ·) (assignedStarts p evs) ∧
      ∀ x ∈ (assignedStarts p evs).head?, p.nextStartTime ≤ x := by
  induction evs generalizing p with
  | nil => simp [assignedStarts]
  | cons ev rest ih =>
      have hd : 0 ≤ ev.2 := h ev (List.mem_cons_self _ _)
      obtain ⟨hc, hh⟩ := ih (enqueue p ev.1 ev.2)
        (fun e he => h e (List.mem_cons_of_mem _ he))
      refine ⟨List.chain'_cons'.mpr ⟨?_, hc⟩, ?_⟩
      · intro y hy
        have hy2 := hh y hy
        simp only [enqueue] at hy2
        calc max p.nextStartTime ev.1
            ≤ max p.nextStartTime ev.1 + ev.2 := le_add_of_nonneg_right hd
          _ ≤ y := hy2
      · intro x hx
        simp only [assignedStarts, List.head?_cons, Option.mem_def,
          Option.some.injEq] at hx
        subst hx
        exact le_max_left _ _

/-- C3: for every sequence of enqueue calls starting from an empty queue,
the assigned start times (each max of the cursor and the output clock at
that call) are exactly the queued start times in arrival order, they are
non-decreasing, and no fragment is assigned a start time earlier than
the output clock reading at the moment of its enqueue. -/
theorem enqueue_startTimes_monotone (evs : List (ℚ × ℚ)) (p : PlaybackState)
    (hq : p.queue = []) (hd : ∀ ev ∈ evs, 0 ≤ ev.2) :
    (runEnqueues p evs).queue.map ScheduledPlayback.startTime = assignedStarts p evs ∧
    List.Chain' (· ≤ ·) ((runEnqueues p evs).queue.map ScheduledPlayback.startTime) ∧
    List.Forall₂ (fun ev st => ev.1 ≤ st) evs (assignedStarts p evs) := by
  have hmap := runEnqueues_queue_map evs p
  rw [hq] at hmap
  simp only [List.map_nil, List.nil_append] at hmap
  refine ⟨hmap, ?_, assignedStarts_clock_le evs p⟩
  rw [hmap]
  exact (assignedStarts_chain evs p hd).1

/-- Witness for C3 at a concrete burst of three enqueues. -/
theorem enqueue_startTimes_monotone_witness :
    (runEnqueues initPlayback [(0, 1), (2, 1), (1, 2)]).queue.map
        ScheduledPlayback.startTime =
      assignedStarts initPlayback [(0, 1), (2, 1), (1, 2)] ∧
    List.Chain' (· ≤ ·) ((runEnqueues initPlayback [(0, 1), (2, 1), (1, 2)]).queue.map
        ScheduledPlayback.startTime) ∧
    List.Forall₂ (fun ev st => ev.1 ≤ st) [((0 : ℚ), (1 : ℚ)), (2, 1), (1, 2)]
      (assignedStarts initPlayback [(0, 1), (2, 1), (1, 2)]) :=
  enqueue_startTimes_monotone [(0, 1), (2, 1), (1, 2)] initPlayback rfl
    (by intro ev hev; fin_cases hev <;> norm_num)

/-- C4: stopAllPlayback issues stop on every in-flight source, clears
the source set and the queue, and resets the cursor to zero; an enqueue
performed right after it, with the output clock at a non-negative time,
is assigned exactly the current clock reading as its start time. -/
theorem interrupt_resets_timeline (p : PlaybackState) (c d : ℚ) (h : 0 ≤ c) :
    stopAllPlayback p =
      { queue := [], nextStartTime := 0, sources := [],
        stopped := p.stopped ++ p.sources } ∧
    (enqueue (stopAllPlayback p) c d).queue = [{ duration := d, startTime := c }] ∧
    (enqueue (stopAllPlayback p) c d).nextStartTime = c + d := by
  refine ⟨rfl, ?_, ?_⟩ <;>
    simp [enqueue, stopAllPlayback, max_eq_right h]

/-- Witness for C4 with the clock at 3. -/
theorem interrupt_resets_timeline_witness :
    stopAllPlayback initPlayback =
      { queue := [], nextStartTime := 0, sources := [],
        stopped := initPlayback.stopped ++ initPlayback.sources } ∧
    (enqueue (stopAllPlayback initPlayback) 3 1).queue =
      [{ duration := 1, startTime := 3 }] ∧
    (enqueue (stopAllPlayback initPlayback) 3 1).nextStartTime = 3 + 1 :=
  interrupt_resets_timeline initPlayback 3 1 (by norm_num)

/-- C6: stopSession is idempotent: two calls in a row from any state end
in the same state as one; stopping an active session ends IDLE with the
session handle discarded and the playback queue empty; and stopping an
inactive session changes nothing. -/
theorem stopSession_idempotent (s : AppState) :
    stopSession (stopSession s) = stopSession s ∧
    (s.isSessionActive = true →
      (stopSession s).status = Status.IDLE ∧
      (stopSession s).isSessionActive = false ∧
      (stopSession s).sessionOpen = false ∧
      (stopSession s).playback.queue = []) ∧
    (s.isSessionActive = false → stopSession s = s) := by
  refine ⟨?_, ?_, ?_⟩
  · by_cases h : s.isSessionActive = true
    · simp [stopSession, h, onclose]
    · simp [stopSession, h]
  · intro h
    simp [stopSession, h, onclose, stopAllPlayback]
  · intro h
    simp [stopSession, h]

/-- Witness for C6 at a concrete active session state. -/
theorem stopSession_idempotent_witness :
    (stopSession activeState).status = Status.IDLE ∧
    (stopSession activeState).isSessionActive = false ∧
    (stopSession activeState).sessionOpen = false ∧
    (stopSession activeState).playback.queue = [] :=
  (stopSession_idempotent activeState).2.1 rfl

/-- C8: sending an image with no open session only surfaces a notice,
leaving the transcript and every other component of the state unchanged;
with an open session an image-only USER entry (empty text, image set) is
appended before transmission, so it is present whether or not the send
succeeds, and a send failure surfaces a notice while the session stays
open and the lifecycle state is untouched. -/
theorem handleSendDrawing_spec (s : AppState) (img : String) (ok : Bool) :
    (s.sessionOpen = false →
      handleSendDrawing s img ok =
        { s with notices := s.notices ++
            ["Please start the session before sending a drawing."] }) ∧
    (s.sessionOpen = true →
      (handleSendDrawing s img ok).transcript =
        s.transcript ++ [{ speaker := Speaker.USER, text := "", image := some img }] ∧
      (handleSendDrawing s img ok).sessionOpen = true ∧
      (handleSendDrawing s img ok).isSessionActive = s.isSessionActive ∧
      (handleSendDrawing s img ok).status = s.status ∧
      (handleSendDrawing s img ok).playback = s.playback) ∧
    (s.sessionOpen = true → ok = false →
      (handleSendDrawing s img ok).notices =
        s.notices ++ ["There was an error sending the drawing."]) := by
  refine ⟨?_, ?_, ?_⟩
  · intro h
    simp [handleSendDrawing, h]
  · intro h
    cases ok <;> simp [handleSendDrawing, h]
  · intro h hok
    subst hok
    simp [handleSendDrawing, h]

/-- Witness for C8: a failing send from an open session still appends
the image entry and surfaces the error notice. -/
theorem handleSendDrawing_spec_witness :
    ((handleSendDrawing activeState "data:png" false).transcript =
        activeState.transcript ++
          [{ speaker := Speaker.USER, text := "", image := some "data:png" }] ∧
      (handleSendDrawing activeState "data:png" false).sessionOpen = true ∧
      (handleSendDrawing activeState "data:png" false).isSessionActive =
        activeState.isSessionActive ∧
      (handleSendDrawing activeState "data:png" false).status = activeState.status ∧
      (handleSendDrawing activeState "data:png" false).playback =
        activeState.playback) ∧
    (handleSendDrawing activeState "data:png" false).notices =
      activeState.notices ++ ["There was an error sending the drawing."] :=
  ⟨(handleSendDrawing_spec activeState "data:png" false).2.1 rfl,
   (handleSendDrawing_spec activeState "data:png" false).2.2 rfl rfl⟩

lemma commitTurn_merge_eq (t : List TranscriptEntry) (u m : String)
    (e : TranscriptEntry) (hl : t.getLast? = some e)
    (h1 : e.speaker = Speaker.USER) (h2 : imageTruthy e.image = true)
    (h3 : e.text = "") (h4 : jsTrim u ≠ "") :
    commitTurn t u m =
      (t.dropLast ++ [{ e with text := jsTrim u }]) ++ tutorEntriesOf (jsTrim m) := by
  unfold commitTurn
  rw [hl]
  show (if e.speaker = Speaker.USER ∧ imageTruthy e.image = true ∧
      e.text = "" ∧ jsTrim u ≠ "" then
      (t.dropLast ++ [{ e with text := jsTrim u }]) ++ tutorEntriesOf (jsTrim m)
    else t ++ (userEntriesOf (jsTrim u) ++ tutorEntriesOf (jsTrim m))) = _
  rw [if_pos ⟨h1, h2, h3, h4⟩]

lemma commitTurn_nomerge_eq (t : List TranscriptEntry) (u m : String)
    (h : ∀ e, t.getLast? = some e →
      ¬(e.speaker = Speaker.USER ∧ imageTruthy e.image = true ∧
        e.text = "" ∧ jsTrim u ≠ "")) :
    commitTurn t u m = t ++ (userEntriesOf (jsTrim u) ++ tutorEntriesOf (jsTrim m)) := by
  unfold commitTurn
  cases hl : t.getLast? with
  | none => rfl
  | some e =>
      show (if e.speaker = Speaker.USER ∧ imageTruthy e.image = true ∧
          e.text = "" ∧ jsTrim u ≠ "" then
          (t.dropLast ++ [{ e with text := jsTrim u }]) ++ tutorEntriesOf (jsTrim m)
        else t ++ (userEntriesOf (jsTrim u) ++ tutorEntriesOf (jsTrim m))) = _
      rw [if_neg (h e hl)]

/-- C1: the in-place image/caption merge happens exactly when the last
transcript entry exists, is a USER entry, carries a (truthy) image, has
empty text, and the trimmed user accumulator is non-empty: then the last
entry has its text replaced by the trimmed user text and no new USER
entry is appended; in every other last-entry state a non-empty trimmed
user accumulator appends a normal USER entry.  (The tutor entry is
independent of either branch.) -/
theorem commitTurn_merge_characterization (t : List TranscriptEntry)
    (u m : String) (e : TranscriptEntry) :
    (t.getLast? = some e → e.speaker = Speaker.USER →
      imageTruthy e.image = true → e.text = "" → jsTrim u ≠ "" →
      commitTurn t u m =
        (t.dropLast ++ [{ e with text := jsTrim u }]) ++ tutorEntriesOf (jsTrim m)) ∧
    (jsTrim u ≠ "" →
      (∀ e2, t.getLast? = some e2 →
        ¬(e2.speaker = Speaker.USER ∧ imageTruthy e2.image = true ∧ e2.text = "")) →
      commitTurn t u m =
        (t ++ [{ speaker := Speaker.USER, text := jsTrim u, image := none }]) ++
          tutorEntriesOf (jsTrim m)) := by
  constructor
  · intro hl h1 h2 h3 h4
    exact commitTurn_merge_eq t u m e hl h1 h2 h3 h4
  · intro h4 hno
    rw [commitTurn_nomerge_eq t u m
      (fun e2 hl hc => hno e2 hl ⟨hc.1, hc.2.1, hc.2.2.1⟩)]
    simp [userEntriesOf, h4]

/-- Witness for C1: a concrete merge commit onto an image-only entry. -/
theorem commitTurn_merge_characterization_witness :
    commitTurn [{ speaker := Speaker.USER, text := "", image := some "data:img" }]
        " what is this " "look closer" =
      ([].dropLast ++
        [{ speaker := Speaker.USER, text := jsTrim " what is this ",
           image := some "data:img" }]) ++ tutorEntriesOf (jsTrim "look closer") := by
  have h := (commitTurn_merge_characterization
    [{ speaker := Speaker.USER, text := "", image := some "data:img" }]
    " what is this " "look closer"
    { speaker := Speaker.USER, text := "", image := some "data:img" }).1
    rfl rfl (by decide) rfl (by decide)
  simpa using h

/-- C2: a commit where both trimmed accumulators are empty leaves the
transcript unchanged; a merge commit appends one entry fewer than the
number of non-empty trimmed accumulators; any other commit appends
exactly one entry per non-empty trimmed accumulator. -/
theorem commitTurn_append_count (t : List TranscriptEntry) (u m : String) :
    (jsTrim u = "" → jsTrim m = "" → commitTurn t u m = t) ∧
    (∀ e, t.getLast? = some e → e.speaker = Speaker.USER →
      imageTruthy e.image = true → e.text = "" → jsTrim u ≠ "" →
      (commitTurn t u m).length + 1 =
        t.length + ((if jsTrim u = "" then 0 else 1) +
          (if jsTrim m = "" then 0 else 1))) ∧
    ((∀ e, t.getLast? = some e →
        ¬(e.speaker = Speaker.USER ∧ imageTruthy e.image = true ∧
          e.text = "" ∧ jsTrim u ≠ "")) →
      (commitTurn t u m).length =
        t.length + ((if jsTrim u = "" then 0 else 1) +
          (if jsTrim m = "" then 0 else 1))) := by
  refine ⟨?_, ?_, ?_⟩
  · intro hu hm
    rw [commitTurn_nomerge_eq t u m (fun e hl hc => hc.2.2.2 hu)]
    simp [userEntriesOf, tutorEntriesOf, hu, hm]
  · intro e hl h1 h2 h3 h4
    have ht : t ≠ [] := by
      intro hnil
      rw [hnil] at hl
      simp at hl
    have hlen : 1 ≤ t.length := List.length_pos.mpr ht
    rw [commitTurn_merge_eq t u m e hl h1 h2 h3 h4]
    by_cases hm : jsTrim m = "" <;>
      simp [tutorEntriesOf, hm, h4, List.length_dropLast] <;> omega
  · intro h
    rw [commitTurn_nomerge_eq t u m h]
    by_cases hu : jsTrim u = "" <;> by_cases hm : jsTrim m = "" <;>
      simp [userEntriesOf, tutorEntriesOf, hu, hm]

/-- Witness for C2: the empty silent-turn commit on a one-entry
transcript is a no-op. -/
theorem commitTurn_append_count_witness :
    commitTurn [{ speaker := Speaker.TUTOR, text := "hello" }] " " "  " =
      [{ speaker := Speaker.TUTOR, text := "hello" }] :=
  (commitTurn_append_count [{ speaker := Speaker.TUTOR, text := "hello" }]
    " " "  ").1 (by decide) (by decide)

lemma applyFrags_user (s : AppState) (c : ServerContent) :
    (applyFrags s c).userTranscription =
      s.userTranscription ++ c.inputTranscription.getD "" := rfl

lemma applyInterrupted_user (s : AppState) (c : ServerContent) :
    (applyInterrupted s c).userTranscription = s.userTranscription := by
  unfold applyInterrupted
  split <;> rfl

lemma applyModelTurn_user (s : AppState) (c : ServerContent) (k : ℚ) :
    (applyModelTurn s c k).userTranscription = s.userTranscription := by
  unfold applyModelTurn
  cases c.modelTurn with
  | none => rfl
  | some o => cases o <;> rfl

lemma applyFrags_model (s : AppState) (c : ServerContent) :
    (applyFrags s c).modelTranscription =
      s.modelTranscription ++ c.outputTranscription.getD "" := rfl

lemma applyInterrupted_model (s : AppState) (c : ServerContent) :
    (applyInterrupted s c).modelTranscription = s.modelTranscription := by
  unfold applyInterrupted
  split <;> rfl

lemma applyModelTurn_model (s : AppState) (c : ServerContent) (k : ℚ) :
    (applyModelTurn s c k).modelTranscription = s.modelTranscription := by
  unfold applyModelTurn
  cases c.modelTurn with
  | none => rfl
  | some o => cases o <;> rfl

lemma applyTurnComplete_user (s : AppState) (c : ServerContent) :
    (applyTurnComplete s c).userTranscription =
      if c.turnComplete then "" else s.userTranscription := by
  unfold applyTurnComplete
  split <;> simp [*]

lemma applyTurnComplete_model (s : AppState) (c : ServerContent) :
    (applyTurnComplete s c).modelTranscription =
      if c.turnComplete then "" else s.modelTranscription := by
  unfold applyTurnComplete
  split <;> simp [*]

lemma onmessage_user (s : AppState) (c : ServerContent) (k : ℚ) :
    (onmessage s (some c) k).userTranscription =
      if c.turnComplete then ""
      else s.userTranscription ++ c.inputTranscription.getD "" := by
  show (applyTurnComplete _ c).userTranscription = _
  rw [applyTurnComplete_user, applyModelTurn_user, applyInterrupted_user,
    applyFrags_user]

lemma onmessage_model (s : AppState) (c : ServerContent) (k : ℚ) :
    (onmessage s (some c) k).modelTranscription =
      if c.turnComplete then ""
      else s.modelTranscription ++ c.outputTranscription.getD "" := by
  show (applyTurnComplete _ c).modelTranscription = _
  rw [applyTurnComplete_model, applyModelTurn_model, applyInterrupted_model,
    applyFrags_model]

lemma applyTurnComplete_status (s : AppState) (c : ServerContent) :
    (applyTurnComplete s c).status =
      if c.turnComplete then Status.LISTENING else s.status := by
  unfold applyTurnComplete
  split <;> simp [*]

/-- C5 (amended): for every inbound message carrying server content, the
resulting status is LISTENING when the message completes a turn, and
otherwise SPEAKING when it carries truthy inline audio, THINKING when it
carries no model turn, LISTENING when it carries an audio-less model
turn; an interruption flag forwards to stopAllPlayback, issuing stop on
every in-flight source, but does not itself select a status; a message
without server content changes nothing. -/
theorem onmessage_status_spec (s : AppState) (c : ServerContent) (k : ℚ) :
    (c.turnComplete = true → (onmessage s (some c) k).status = Status.LISTENING) ∧
    (c.turnComplete = false → ∀ d, c.modelTurn = some (some d) →
      (onmessage s (some c) k).status = Status.SPEAKING) ∧
    (c.turnComplete = false → c.modelTurn = none →
      (onmessage s (some c) k).status = Status.THINKING) ∧
    (c.turnComplete = false → c.modelTurn = some none →
      (onmessage s (some c) k).status = Status.LISTENING) ∧
    (c.interrupted = true →
      (onmessage s (some c) k).playback.stopped =
        s.playback.stopped ++ s.playback.sources) ∧
    onmessage s none k = s := by
  refine ⟨?_, ?_, ?_, ?_, ?_, rfl⟩
  · intro h
    show (applyTurnComplete _ c).status = _
    rw [applyTurnComplete_status, if_pos h]
  · intro h d hd
    show (applyTurnComplete _ c).status = _
    rw [applyTurnComplete_status, if_neg (by simp [h])]
    simp [applyModelTurn, hd]
  · intro h hd
    show (applyTurnComplete _ c).status = _
    rw [applyTurnComplete_status, if_neg (by simp [h])]
    simp [applyModelTurn, hd]
  · intro h hd
    show (applyTurnComplete _ c).status = _
    rw [applyTurnComplete_status, if_neg (by simp [h])]
    simp [applyModelTurn, hd]
  · intro h
    cases hmt : c.modelTurn with
    | none =>
        cases htc : c.turnComplete <;>
          simp [onmessage, applyFrags, applyInterrupted, h, applyModelTurn, hmt,
            applyTurnComplete, htc, stopAllPlayback]
    | some o =>
        cases o <;> cases htc : c.turnComplete <;>
          simp [onmessage, applyFrags, applyInterrupted, h, applyModelTurn, hmt,
            applyTurnComplete, htc, stopAllPlayback, processAudioPlayback, enqueue]

/-- A server content carrying only a user fragment and a turn-complete
flag. -/
def commitMsg : ServerContent :=
  { inputTranscription := some " hi", outputTranscription := none,
    modelTurn := none, turnComplete := true, interrupted := false }

/-- A server content carrying only the interrupted flag. -/
def interruptOnlyMsg : ServerContent :=
  { inputTranscription := none, outputTranscription := none,
    modelTurn := none, turnComplete := false, interrupted := true }

/-- Witness for C5 at a turn-complete message and at an interruption. -/
theorem onmessage_status_spec_witness :
    (onmessage activeState (some commitMsg) 0).status = Status.LISTENING ∧
    (onmessage activeState (some interruptOnlyMsg) 0).playback.stopped =
      activeState.playback.stopped ++ activeState.playback.sources :=
  ⟨(onmessage_status_spec activeState commitMsg 0).1 rfl,
   (onmessage_status_spec activeState interruptOnlyMsg 0).2.2.2.2.1 rfl⟩

/-- Counterexample for C5 as stated: a message carrying only the
interrupted flag does forward to stopAllPlayback, but the status after
it is THINKING via the no-model-turn branch, not LISTENING as the claim
requires for an interruption signal. -/
theorem onmessage_interrupt_only_ends_thinking :
    (onmessage activeState (some interruptOnlyMsg) 0).status = Status.THINKING ∧
    Status.THINKING ≠ Status.LISTENING ∧
    (onmessage activeState (some interruptOnlyMsg) 0).playback.queue = [] ∧
    (onmessage activeState (some interruptOnlyMsg) 0).playback.nextStartTime = 0 := by
  refine ⟨rfl, by decide, rfl, rfl⟩

lemma handleSendDrawing_user (s : AppState) (img : String) (ok : Bool) :
    (handleSendDrawing s img ok).userTranscription = s.userTranscription := by
  unfold handleSendDrawing
  split
  · split <;> rfl
  · rfl

lemma handleSendDrawing_model (s : AppState) (img : String) (ok : Bool) :
    (handleSendDrawing s img ok).modelTranscription = s.modelTranscription := by
  unfold handleSendDrawing
  split
  · split <;> rfl
  · rfl

/-- The user fragments accumulated and not yet committed after a trace:
each server-content message either resets the accumulator (when it
completes a turn) or extends it with its fragment; every other event
leaves it alone. -/
def pendingUserAfter (acc : String) : List AppEvent → String
  | [] => acc
  | AppEvent.msg none _ :: rest => pendingUserAfter acc rest
  | AppEvent.msg (some c) _ :: rest =>
      pendingUserAfter
        (if c.turnComplete then "" else acc ++ c.inputTranscription.getD "") rest
  | _ :: rest => pendingUserAfter acc rest

/-- The tutor fragments accumulated and not yet committed after a trace. -/
def pendingModelAfter (acc : String) : List AppEvent → String
  | [] => acc
  | AppEvent.msg none _ :: rest => pendingModelAfter acc rest
  | AppEvent.msg (some c) _ :: rest =>
      pendingModelAfter
        (if c.turnComplete then "" else acc ++ c.outputTranscription.getD "") rest
  | _ :: rest => pendingModelAfter acc rest

/-- C7 (amended): both accumulators are reset exactly at turn-boundary
commits — after any trace of message, close, error, start, open and
send-image events each accumulator holds precisely the fragments of its
speaker received since the last turn-complete commit; close, error and
start events do not reset them, so they can stay non-empty outside any
turn. -/
theorem accumulators_characterized (evs : List AppEvent) (s : AppState) :
    (runEvents s evs).userTranscription =
      pendingUserAfter s.userTranscription evs ∧
    (runEvents s evs).modelTranscription =
      pendingModelAfter s.modelTranscription evs := by
  induction evs generalizing s with
  | nil => exact ⟨rfl, rfl⟩
  | cons ev rest ih =>
      cases ev with
      | msg m k =>
          cases m with
          | none => exact ih s
          | some c =>
              constructor
              · have h1 := (ih (onmessage s (some c) k)).1
                rw [onmessage_user] at h1
                exact h1
              · have h1 := (ih (onmessage s (some c) k)).2
                rw [onmessage_model] at h1
                exact h1
      | close => exact ih (onclose s)
      | error => exact ih (onerror s)
      | startReq => exact ih (startRequest s)
      | opened => exact ih (onopen s)
      | startFail => exact ih (startFailed s)
      | sendImg img ok =>
          constructor
          · have h1 := (ih (handleSendDrawing s img ok)).1
            rw [handleSendDrawing_user] at h1
            exact h1
          · have h1 := (ih (handleSendDrawing s img ok)).2
            rw [handleSendDrawing_model] at h1
            exact h1

/-- A server content carrying only one user fragment. -/
def userFragMsg : ServerContent :=
  { inputTranscription := some "hi", outputTranscription := none,
    modelTurn := none, turnComplete := false, interrupted := false }

/-- The trace of the C7 counterexample: start, open, one user fragment,
close with no commit. -/
def fragThenCloseTrace : List AppEvent :=
  [AppEvent.startReq, AppEvent.opened,
   AppEvent.msg (some userFragMsg) 0, AppEvent.close]

/-- Counterexample for C7 as stated: start a session, receive one user
fragment, then close before any commit.  The resulting state is IDLE
with no active session, yet the user accumulator still holds the
fragment — non-empty outside any turn, because close does not reset the
accumulators. -/
theorem accumulator_survives_close :
    (runEvents initState fragThenCloseTrace).isSessionActive = false ∧
    (runEvents initState fragThenCloseTrace).status = Status.IDLE ∧
    (runEvents initState fragThenCloseTrace).userTranscription = "hi" := by
  refine ⟨rfl, rfl, rfl⟩

/-- C9: enqueuing buffers of durations 1, 1 and 1/2 seconds in immediate
succession with the output clock at 0 and the cursor at 0 assigns start
times 0, 1 and 2, and leaves the timeline cursor at 5/2, the sum of the
durations. -/
theorem enqueue_scenario_one_one_half :
    ((runEnqueues initPlayback [(0, 1), (0, 1), (0, 1/2)]).queue.map
        ScheduledPlayback.startTime = [0, 1, 2]) ∧
    (runEnqueues initPlayback [(0, 1), (0, 1), (0, 1/2)]).nextStartTime = 5/2 := by
  norm_num [runEnqueues, enqueue, initPlayback]

/-- C10: stopping a session (the onclose cleanup, and the stopSession
surface built on it) leaves the transcript exactly as it was, and the
start branch clears the transcript and sets CONNECTING before the
connection is attempted, so the transcript is empty when the session
opens. -/
theorem transcript_survives_stop_cleared_on_start (s : AppState) :
    (onclose s).transcript = s.transcript ∧
    (stopSession s).transcript = s.transcript ∧
    (startRequest s).transcript = [] ∧
    (startRequest s).status = Status.CONNECTING ∧
    (onopen (startRequest s)).transcript = [] := by
  refine ⟨rfl, ?_, rfl, rfl, rfl⟩
  unfold stopSession
  split <;> rfl

end LavaTutor
